import Mathlib

/-!
A verification development for the stream-processing core of the
redis-iot-anomaly-detector repository (`stream_processor.py`), shallowly
embedded in Lean 4.

Modelling conventions:
* Python floats are embedded as exact rationals (`ℚ`); timestamps are `ℤ`
  (Redis time-series timestamps are 64-bit integers).
* The Redis time-series for one key is a list of `(timestamp, value)` samples
  kept in ascending timestamp order, which is how RedisTimeSeries stores and
  returns samples.  The whole store is a map from key strings to such lists.
* `TS.RANGE key '-' '+' COUNT n` (redis-py `ts_client.range(key, '-', '+',
  count=n)`) returns the samples of the range in ascending timestamp order,
  truncated to the FIRST `n` of them, i.e. the `n` oldest samples.
* `TS.ADD` stores one sample per timestamp.  The source passes no
  `duplicate_policy`, so the store's default `DUPLICATE_POLICY BLOCK`
  applies: adding at an already-stored timestamp raises, which the per-entry
  `except` catches; only a fresh timestamp is inserted (`tsAdd` below).
* Fallible operations are modelled with `Except`/`Option`: a `none`/`.error`
  stands for a raised Python exception at that operation.
-/

namespace StreamProcessor

/-- `INPUT_STREAM_KEY = 'sensor:temperature:01'` (stream_processor.py line 8). -/
def INPUT_STREAM_KEY : String := "sensor:temperature:01"

/-- `device_id = INPUT_STREAM_KEY.split(':')[-1]` (lines 110/165): the final
`:`-separated component of `"sensor:temperature:01"`, namely `"01"`. -/
def device_id : String := "01"

/-- `ts_key = f"device:{device_id}:temp"` (lines 47/111/166). -/
def tsKey (d : String) : String := "device:" ++ d ++ ":temp"

/-- One stored sample: (timestamp in milliseconds, value). -/
abbrev Sample := ℤ × ℚ

/-- The time-series store: each key holds its samples in ascending
timestamp order. -/
abbrev TSStore := String → List Sample

/-- Ascending-timestamp insertion of one sample: the success path of
`TS.ADD`.  `tsAdd` below rejects an already-stored timestamp first (default
`DUPLICATE_POLICY BLOCK`), so this is only ever applied to a fresh
timestamp. -/
def tsInsert (t : ℤ) (v : ℚ) : List Sample → List Sample
  | [] => [(t, v)]
  | (t', v') :: rest =>
    if t < t' then (t, v) :: (t', v') :: rest
    else if t = t' then (t, v) :: rest
    else (t', v') :: tsInsert t v rest

/-- `ts_client.range(ts_key, '-', '+', count=window_size)` (line 53):
the full ascending range truncated to its first `count` samples, i.e. the
`count` OLDEST stored samples. -/
def tsRange (samples : List Sample) (count : ℕ) : List Sample :=
  samples.take count

/-- `moving_average = sum(values) / len(values)` (line 63). -/
def movingAverage (values : List ℚ) : ℚ :=
  values.sum / values.length

/-- `variance = sum([(v - moving_average) ** 2 for v in values]) / len(values)`
(line 66): the population variance, `N` denominator. -/
def codeVariance (values : List ℚ) : ℚ :=
  (values.map (fun v => (v - movingAverage values) ^ 2)).sum / values.length

/-- The spec's §4.1 formula, stated in its own words for comparison:
`Σ(v - mean)^2 / (N - 1)`, the sample variance with the `N - 1` denominator. -/
def sampleVariance (values : List ℚ) : ℚ :=
  (values.map (fun v => (v - movingAverage values) ^ 2)).sum /
    ((values.length : ℚ) - 1)

/-- The source's anomaly test (lines 67-74) is
`not (mean - m*sqrt(var) <= temp <= mean + m*sqrt(var))` with
`standard_deviation = variance ** 0.5`.  Since `sqrt(var)` is irrational in
general we use the algebraically equivalent square comparison
`m^2 * var < (temp - mean)^2`, which agrees with the source's test for every
nonnegative multiplier (`isOutsideBounds_iff_real` below); the source only
ever uses the multiplier `2`. -/
def isOutsideBounds (mean varq mult temp : ℚ) : Bool :=
  decide (mult ^ 2 * varq < (temp - mean) ^ 2)

/-- The triple returned by `check_for_anomaly`
(`is_anomaly, moving_average, standard_deviation`).  The source's
`standard_deviation` is `variance ** 0.5`; we carry its square `variance`
(exactly representable in `ℚ`), so the reported standard deviation is
`Real.sqrt` of the `variance` field. -/
structure CheckResult where
  is_anomaly : Bool
  moving_average : Option ℚ
  variance : Option ℚ
  deriving DecidableEq

/-- Body of `check_for_anomaly`'s `try:`/`except:` (lines 49-80), with the
fallible store read made explicit: `.error` stands for an exception raised by
the `ts_client.range` call (connectivity, malformed stored value), which the
`except` arm turns into `return False, None, None`. -/
def checkCore (readResult : Except String (List Sample)) (window_size : ℕ)
    (std_dev_multiplier temperature : ℚ) : CheckResult :=
  match readResult with
  | .error _ => ⟨false, none, none⟩
  | .ok data_points =>
    if data_points.length < window_size then ⟨false, none, none⟩
    else
      let values := data_points.map (·.2)
      let mean := movingAverage values
      let varq := codeVariance values
      ⟨isOutsideBounds mean varq std_dev_multiplier temperature,
        some mean, some varq⟩

/-- `check_for_anomaly(r, ts_client, device_id, temperature, window_size=100,
std_dev_multiplier=2)` (lines 43-80) against a store in which the range read
succeeds.  The Python defaults `100` and `2` are passed explicitly by the
callers below, mirroring the call sites (lines 114/169) which pass no
overriding arguments. -/
def check_for_anomaly (store : TSStore) (d : String) (temperature : ℚ)
    (window_size : ℕ) (std_dev_multiplier : ℚ) : CheckResult :=
  checkCore (.ok (tsRange (store (tsKey d)) window_size))
    window_size std_dev_multiplier temperature

/-- The spec's `TimeSeriesRange` contract in its own words, for comparison
with `tsRange`: "returns up to `count` most recent samples, oldest-first". -/
def specRangeMostRecent (samples : List Sample) (count : ℕ) : List Sample :=
  samples.drop (samples.length - count)

/-! ### Supporting lemmas for the statistics engine -/

lemma sum_of_const (l : List ℚ) (v : ℚ) (h : ∀ x ∈ l, x = v) :
    l.sum = (l.length : ℚ) * v := by
  induction l with
  | nil => simp
  | cons a tl ih =>
    have ha : a = v := h a (List.mem_cons_self a tl)
    have htl := ih (fun x hx => h x (List.mem_cons_of_mem a hx))
    simp only [List.sum_cons, List.length_cons, ha, htl]
    push_cast
    ring

lemma codeVariance_nonneg (l : List ℚ) : 0 ≤ codeVariance l := by
  unfold codeVariance
  apply div_nonneg _ (by positivity)
  apply List.sum_nonneg
  intro x hx
  rcases List.mem_map.mp hx with ⟨y, _, rfl⟩
  positivity

/-- Justification that the square comparison in `isOutsideBounds` is exactly
the source's test `not (mean - m*sqrt(var) <= t <= mean + m*sqrt(var))`
whenever the multiplier is nonnegative (the source always uses `2`). -/
lemma isOutsideBounds_iff_real (mean varq m t : ℚ) (hm : 0 ≤ m)
    (hv : 0 ≤ varq) :
    isOutsideBounds mean varq m t = true ↔
      ¬((mean : ℝ) - m * Real.sqrt varq ≤ (t : ℝ) ∧
        (t : ℝ) ≤ (mean : ℝ) + m * Real.sqrt varq) := by
  unfold isOutsideBounds
  rw [decide_eq_true_iff]
  have hvR : (0 : ℝ) ≤ (varq : ℚ) := by exact_mod_cast hv
  have hmR : (0 : ℝ) ≤ (m : ℚ) := by exact_mod_cast hm
  have hc : (0 : ℝ) ≤ (m : ℚ) * Real.sqrt varq :=
    mul_nonneg hmR (Real.sqrt_nonneg _)
  have habs : ((mean : ℝ) - m * Real.sqrt varq ≤ (t : ℝ) ∧
      (t : ℝ) ≤ (mean : ℝ) + m * Real.sqrt varq) ↔
      |(t : ℝ) - mean| ≤ (m : ℚ) * Real.sqrt varq := by
    rw [abs_le]
    constructor <;> intro h <;> exact ⟨by linarith [h.1, h.2], by linarith [h.1, h.2]⟩
  have key : (m : ℝ) * Real.sqrt varq < |(t : ℝ) - mean| ↔
      ((m : ℚ) : ℝ) ^ 2 * varq < ((t : ℝ) - mean) ^ 2 := by
    constructor
    · intro h
      have h2 : ((m : ℝ) * Real.sqrt varq) ^ 2 < |(t : ℝ) - mean| ^ 2 := by
        have := mul_self_lt_mul_self hc h
        rw [pow_two, pow_two]
        exact this
      calc ((m : ℚ) : ℝ) ^ 2 * varq = ((m : ℝ) * Real.sqrt varq) ^ 2 := by
            rw [mul_pow, Real.sq_sqrt hvR]
        _ < |(t : ℝ) - mean| ^ 2 := h2
        _ = ((t : ℝ) - mean) ^ 2 := sq_abs _
    · intro h
      have h2 : ((m : ℝ) * Real.sqrt varq) ^ 2 < |(t : ℝ) - mean| ^ 2 := by
        rw [mul_pow, Real.sq_sqrt hvR, sq_abs]
        exact h
      exact lt_of_pow_lt_pow_left₀ 2 (abs_nonneg _) h2
  constructor
  · intro hq hand
    have hle : |(t : ℝ) - mean| ≤ (m : ℚ) * Real.sqrt varq := habs.mp hand
    have hltR : ((m : ℚ) : ℝ) ^ 2 * varq < ((t : ℝ) - mean) ^ 2 := by
      exact_mod_cast hq
    have := key.mpr hltR
    linarith
  · intro hnot
    have hgt : (m : ℝ) * Real.sqrt varq < |(t : ℝ) - mean| := by
      by_contra hle
      exact hnot (habs.mpr (le_of_not_lt hle))
    have := key.mp hgt
    exact_mod_cast this

lemma checkCore_ok_of_full (data : List Sample) (ws : ℕ) (m t : ℚ)
    (h : ¬ data.length < ws) :
    checkCore (.ok data) ws m t =
      ⟨isOutsideBounds (movingAverage (data.map (·.2)))
          (codeVariance (data.map (·.2))) m t,
        some (movingAverage (data.map (·.2))),
        some (codeVariance (data.map (·.2)))⟩ := by
  simp only [checkCore]
  rw [if_neg h]

/-! ### Concrete stores used in counterexamples and witnesses -/

/-- A store for device `01` holding three samples, oldest `(1, 10)`,
newest `(3, 30)`. -/
def storeC1 : TSStore :=
  fun k => if k = tsKey "01" then [(1, 10), (2, 20), (3, 30)] else []

/-- A store for device `01` holding the two samples `(1, 0)` and `(2, 2)`. -/
def storeC2 : TSStore :=
  fun k => if k = tsKey "01" then [(1, 0), (2, 2)] else []

/-- A store for device `01` holding two identical samples of value `20`. -/
def storeC8 : TSStore :=
  fun k => if k = tsKey "01" then [(1, 20), (2, 20)] else []

/-! ### Claims about the statistics engine and classifier -/

/-- C1: the claim says the baseline window is the `N` most-recently-stored
readings.  The code's `ts_client.range(ts_key, '-', '+', count=N)` returns the
`N` OLDEST samples.  On a store holding `[(1,10),(2,20),(3,30)]` with `N = 2`
the code's window is `[(1,10),(2,20)]` (mean 15), not the two most recent
`[(2,20),(3,30)]` (mean 25), contradicting the claim and the code's own
comment "Fetch the last 'window_size' data points". -/
theorem c1_window_uses_oldest_samples :
    tsRange (storeC1 (tsKey "01")) 2 = [(1, 10), (2, 20)] ∧
    specRangeMostRecent (storeC1 (tsKey "01")) 2 = [(2, 20), (3, 30)] ∧
    (check_for_anomaly storeC1 "01" 99 2 2).moving_average = some 15 ∧
    movingAverage ((specRangeMostRecent (storeC1 (tsKey "01")) 2).map (·.2)) = 25 := by
  refine ⟨by decide, by decide, ?_, ?_⟩
  · norm_num [check_for_anomaly, checkCore, tsRange, storeC1, tsKey,
      movingAverage, codeVariance, isOutsideBounds]
  · norm_num [specRangeMostRecent, storeC1, tsKey, movingAverage]

/-- C2 counterexample: on the full window `[0, 2]` the engine reports the
variance `1` (population, `N` denominator), whose square root `1` differs from
the claim's sample standard deviation `sqrt 2`. -/
theorem c2_reported_std_not_sample_std :
    (check_for_anomaly storeC2 "01" 5 2 2).variance = some 1 ∧
    sampleVariance [0, 2] = 2 ∧
    Real.sqrt ((1 : ℚ) : ℝ) ≠ Real.sqrt ((2 : ℚ) : ℝ) := by
  refine ⟨?_, ?_, ?_⟩
  · norm_num [check_for_anomaly, checkCore, tsRange, storeC2, tsKey,
      movingAverage, codeVariance, isOutsideBounds]
  · norm_num [sampleVariance, movingAverage]
  intro h
  have h1 : Real.sqrt ((1 : ℚ) : ℝ) = 1 := by
    norm_num
  have h2 : ((2 : ℚ) : ℝ) = 2 := by norm_num
  rw [h1, h2] at h
  have hs := Real.sq_sqrt (by norm_num : (0 : ℝ) ≤ 2)
  rw [← h] at hs
  norm_num at hs

/-- C2 amended: the variance computed by the code (line 66) is the population
variance; for every window of `N ≥ 2` values it relates to the spec's sample
variance by `codeVariance * N = sampleVariance * (N - 1)` (both sides equal
the sum of squared deviations). -/
theorem c2_population_sample_relation (w : List ℚ) (h : 2 ≤ w.length) :
    codeVariance w * (w.length : ℚ) = sampleVariance w * ((w.length : ℚ) - 1) := by
  have h2 : (2 : ℚ) ≤ (w.length : ℚ) := by exact_mod_cast h
  have hn : ((w.length : ℕ) : ℚ) ≠ 0 := by
    intro h0
    rw [h0] at h2
    linarith
  have hn1 : ((w.length : ℚ) - 1) ≠ 0 := by
    intro h0
    have : (w.length : ℚ) = 1 := by linarith
    rw [this] at h2
    linarith
  unfold codeVariance sampleVariance
  rw [div_mul_cancel₀ _ hn, div_mul_cancel₀ _ hn1]

/-- Witness for C2's amended theorem on the window `[0, 2]`. -/
theorem c2_population_sample_relation_witness :
    codeVariance [0, 2] * ((([0, 2] : List ℚ).length : ℚ)) =
      sampleVariance [0, 2] * ((([0, 2] : List ℚ).length : ℚ) - 1) :=
  c2_population_sample_relation [0, 2] (by decide)

lemma check_short_history (store : TSStore) (d : String)
    (t : ℚ) (ws : ℕ) (m : ℚ) (h : (store (tsKey d)).length < ws) :
    check_for_anomaly store d t ws m = ⟨false, none, none⟩ := by
  have hlen : ((store (tsKey d)).take ws).length < ws := by
    rw [List.length_take]
    omega
  simp only [check_for_anomaly, checkCore, tsRange]
  rw [if_pos hlen]

/-- C7: with fewer stored readings than `window_size`, the check returns
`(False, None, None)` — not anomalous — for every new reading value. -/
theorem c7_insufficient_history_not_anomalous (store : TSStore) (d : String)
    (t : ℚ) (ws : ℕ) (m : ℚ) (h : (store (tsKey d)).length < ws) :
    check_for_anomaly store d t ws m = ⟨false, none, none⟩ :=
  check_short_history store d t ws m h

/-- Witness for C7: empty history, reading `5`, defaults `100` and `2`. -/
theorem c7_insufficient_history_witness :
    check_for_anomaly (fun _ => []) "01" 5 100 2 = ⟨false, none, none⟩ :=
  c7_insufficient_history_not_anomalous (fun _ => []) "01" 5 100 2 (by decide)

lemma check_flat_window (store : TSStore) (d : String)
    (v t : ℚ) (ws : ℕ) (m : ℚ) (h1 : 1 ≤ ws)
    (hlen : ws ≤ (store (tsKey d)).length)
    (hall : ∀ p ∈ (store (tsKey d)).take ws, p.2 = v) :
    ((check_for_anomaly store d t ws m).is_anomaly = true ↔ t ≠ v) := by
  have hwlen : ((store (tsKey d)).take ws).length = ws := by
    rw [List.length_take]
    omega
  have hvals : ∀ x ∈ ((store (tsKey d)).take ws).map (·.2), x = v := by
    intro x hx
    rcases List.mem_map.mp hx with ⟨p, hp, rfl⟩
    exact hall p hp
  have hnotlt : ¬ ((store (tsKey d)).take ws).length < ws := by omega
  have hlen2 : (((store (tsKey d)).take ws).map (·.2)).length = ws := by
    rw [List.length_map, hwlen]
  have hne : ((((store (tsKey d)).take ws).map (·.2)).length : ℚ) ≠ 0 := by
    rw [hlen2]
    exact Nat.cast_ne_zero.mpr (by omega)
  have hmean : movingAverage (((store (tsKey d)).take ws).map (·.2)) = v := by
    unfold movingAverage
    rw [sum_of_const _ v hvals, mul_comm, mul_div_assoc, div_self hne, mul_one]
  have hvar : codeVariance (((store (tsKey d)).take ws).map (·.2)) = 0 := by
    unfold codeVariance
    rw [hmean]
    have hz : ∀ x ∈ (((store (tsKey d)).take ws).map (·.2)).map
        (fun x => (x - v) ^ 2), x = 0 := by
      intro x hx
      rcases List.mem_map.mp hx with ⟨y, hy, rfl⟩
      rw [hvals y hy]
      ring
    rw [sum_of_const _ 0 hz, mul_zero, zero_div]
  have hrw : check_for_anomaly store d t ws m =
      checkCore (.ok ((store (tsKey d)).take ws)) ws m t := rfl
  rw [hrw, checkCore_ok_of_full _ _ _ _ hnotlt]
  show isOutsideBounds _ _ m t = true ↔ t ≠ v
  rw [hmean, hvar]
  unfold isOutsideBounds
  rw [decide_eq_true_iff, mul_zero]
  constructor
  · intro hlt heq
    rw [heq, sub_self] at hlt
    simp at hlt
  · intro hne2
    have hsub : t - v ≠ 0 := sub_ne_zero.mpr hne2
    positivity

/-- C8: on a full window whose stored values are all `v` (zero variance), a
new reading is classified anomalous exactly when it differs from the mean
`v`. -/
theorem c8_zero_variance_classification (store : TSStore) (d : String)
    (v t : ℚ) (ws : ℕ) (m : ℚ) (h1 : 1 ≤ ws)
    (hlen : ws ≤ (store (tsKey d)).length)
    (hall : ∀ p ∈ (store (tsKey d)).take ws, p.2 = v) :
    ((check_for_anomaly store d t ws m).is_anomaly = true ↔ t ≠ v) :=
  check_flat_window store d v t ws m h1 hlen hall

/-- Witness for C8: flat history of two `20`s, reading `25` differs from the
mean, so it is anomalous. -/
theorem c8_zero_variance_witness :
    ((check_for_anomaly storeC8 "01" 25 2 2).is_anomaly = true ↔ (25 : ℚ) ≠ 20) :=
  c8_zero_variance_classification storeC8 "01" 20 25 2 2 (by decide) (by decide)
    (by decide)

/-- C9: when the store read raises, the `except` arm returns
`(False, None, None)` — the same no-baseline, not-anomalous result as
insufficient history (here compared with the check on an empty history). -/
theorem c9_store_error_no_baseline (err : String) (d : String) (ws : ℕ)
    (m t : ℚ) (h : 1 ≤ ws) :
    checkCore (.error err) ws m t = ⟨false, none, none⟩ ∧
    checkCore (.error err) ws m t = check_for_anomaly (fun _ => []) d t ws m := by
  have h0 : (([] : List Sample).take ws).length < ws := by
    simp only [List.take_nil, List.length_nil]
    omega
  constructor
  · rfl
  · show (⟨false, none, none⟩ : CheckResult) = _
    simp only [check_for_anomaly, checkCore, tsRange]
    rw [if_pos h0]

/-- Witness for C9 at a concrete error and the default parameters. -/
theorem c9_store_error_witness :
    checkCore (.error "boom") 100 2 5 = ⟨false, none, none⟩ ∧
    checkCore (.error "boom") 100 2 5 =
      check_for_anomaly (fun _ => []) "01" 5 100 2 :=
  c9_store_error_no_baseline "boom" "01" 100 2 5 (by decide)

/-! ### Per-entry processing (lines 106-133 and 161-188, identical blocks) -/

/-- One entry read from the input stream.  `id` is the stream entry id; the
field map carries `'timestamp'` (producer seconds, fractional) and
`'temperature_c'`.  A `none` field models a missing or non-numeric value,
for which the source's `float(decoded_data.get(...))` raises. -/
structure Entry where
  id : ℕ
  timestamp : Option ℚ
  temperature_c : Option ℚ
  deriving DecidableEq

/-- Python `int(...)` on a float: truncation toward zero. -/
def pyInt (q : ℚ) : ℤ := if 0 ≤ q then ⌊q⌋ else ⌈q⌉

/-- Lines 107-109 / 162-164:
`timestamp_ms = int(float(data.get('timestamp')) * 1000)`,
`temperature = float(data.get('temperature_c'))`; `none` when either field
raises (the surrounding `except` then leaves the state untouched). -/
def decodeEntry (e : Entry) : Option (ℤ × ℚ) :=
  match e.timestamp, e.temperature_c with
  | some ts, some temp => some (pyInt (ts * 1000), temp)
  | _, _ => none

/-- The record `alert_data` appended to the `anomaly_alerts` stream (lines
117-124 / 172-179).  The source's `standard_deviation` entry is the square
root of the `variance` field carried here (see `CheckResult`). -/
structure Alert where
  device_id : String
  type : String
  temp_reading : ℚ
  moving_average : Option ℚ
  variance : Option ℚ
  timestamp : ℤ
  deriving DecidableEq

def mkAlert (temperature : ℚ) (res : CheckResult) (timestamp_ms : ℤ) : Alert :=
  ⟨device_id, "statistical_anomaly", temperature, res.moving_average,
    res.variance, timestamp_ms⟩

/-- The externally visible state touched by one consumer: the time-series
store, the `anomaly_alerts` stream (append-only list), and the set of
acknowledged entry ids. -/
structure ProcState where
  store : TSStore
  alerts : List Alert
  acked : List ℕ

/-- Point update of one key of the time-series store. -/
def storeUpdate (f : TSStore) (k : String) (g : List Sample → List Sample) :
    TSStore :=
  fun q => if q = k then g (f q) else f q

/-- `ts_client.add(ts_key, timestamp_ms, temperature, ...)` (lines 128/183).
The call passes no `duplicate_policy`, so the store's default
`DUPLICATE_POLICY BLOCK` applies: adding at an already-stored timestamp
raises (the `.error` case); a fresh timestamp is inserted in ascending
order. -/
def tsAdd (store : TSStore) (k : String) (t : ℤ) (v : ℚ) :
    Except String TSStore :=
  if (store k).any (fun p => decide (p.1 = t)) then
    .error "TSDB: duplicate timestamp rejected by DUPLICATE_POLICY BLOCK"
  else
    .ok (storeUpdate store k (tsInsert t v))

/-- The per-entry block shared verbatim by the recovery loop (lines 106-133)
and the live loop (lines 161-188): decode, `check_for_anomaly` with the
Python default arguments `window_size=100, std_dev_multiplier=2` (the call
sites pass none), alert emission on anomaly, `ts_client.add` persist, and
`r.xack`.  The index `k` is the number of the three effectful operations
(alert-emission site, persist, acknowledge) completed before the process
died; `k ≥ 3` is a crash-free run.  A decode failure is the
raised-and-caught exception path before any operation runs: the state is
unchanged.  A `tsAdd` failure (duplicate timestamp) raises after the alert
site: the `except` catches it, so neither the persist nor the acknowledge
happens. -/
def processEntrySteps (s : ProcState) (e : Entry) (k : ℕ) : ProcState :=
  match decodeEntry e with
  | none => s
  | some (timestamp_ms, temperature) =>
    let res := check_for_anomaly s.store device_id temperature 100 2
    let s1 := if res.is_anomaly then
        { s with alerts := s.alerts ++ [mkAlert temperature res timestamp_ms] }
      else s
    match k with
    | 0 => s
    | 1 => s1
    | n + 2 =>
      match tsAdd s1.store (tsKey device_id) timestamp_ms temperature with
      | .error _ => s1
      | .ok st =>
        let s2 := { s1 with store := st }
        match n with
        | 0 => s2
        | _ + 1 => { s2 with acked := s2.acked ++ [e.id] }

/-- A crash-free run of the per-entry block. -/
def processEntry (s : ProcState) (e : Entry) : ProcState :=
  processEntrySteps s e 3

/-- Parameters as the spec's Parameter Store holds them
(`window_size` default 100, `std_dev_multiplier` default 2.0). -/
structure Params where
  window_size : ℕ
  std_dev_multiplier : ℚ

/-- Follows the spec's words (§2 "Parameters are re-read from the Parameter
Store per batch", §4.3 steps 2-3): per-entry processing that passes the
Parameter Store's current values to the statistics/classifier call.  The
source performs no such read — this definition exists only to compare the
spec's stated behaviour with the source's. -/
def processEntryParamsSpec (p : Params) (s : ProcState) (e : Entry) :
    ProcState :=
  match decodeEntry e with
  | none => s
  | some (timestamp_ms, temperature) =>
    let res := check_for_anomaly s.store device_id temperature
      p.window_size p.std_dev_multiplier
    let s1 := if res.is_anomaly then
        { s with alerts := s.alerts ++ [mkAlert temperature res timestamp_ms] }
      else s
    match tsAdd s1.store (tsKey device_id) timestamp_ms temperature with
    | .error _ => s1
    | .ok st =>
      let s2 := { s1 with store := st }
      { s2 with acked := s2.acked ++ [e.id] }

/-! ### Supporting lemmas about the per-entry block -/

lemma self_mem_tsInsert (t : ℤ) (v : ℚ) (l : List Sample) :
    (t, v) ∈ tsInsert t v l := by
  induction l with
  | nil => simp [tsInsert]
  | cons a rest ih =>
    obtain ⟨u, w⟩ := a
    by_cases h1 : t < u
    · simp [tsInsert, h1]
    · by_cases h2 : t = u
      · simp [tsInsert, h1, h2]
      · simp [tsInsert, h1, h2, ih]

lemma any_tsInsert_self (t : ℤ) (v : ℚ) (l : List Sample) :
    (tsInsert t v l).any (fun p => decide (p.1 = t)) = true :=
  List.any_eq_true.mpr ⟨(t, v), self_mem_tsInsert t v l, by simp⟩

lemma storeUpdate_same (f : TSStore) (k : String)
    (g : List Sample → List Sample) : storeUpdate f k g k = g (f k) := by
  simp [storeUpdate]

lemma processEntrySteps_decode_none (s : ProcState) (e : Entry) (k : ℕ)
    (hd : decodeEntry e = none) : processEntrySteps s e k = s := by
  unfold processEntrySteps
  rw [hd]

lemma processEntrySteps_zero (s : ProcState) (e : Entry) :
    processEntrySteps s e 0 = s := by
  unfold processEntrySteps
  cases hd : decodeEntry e with
  | none => rfl
  | some p => obtain ⟨tms, temp⟩ := p; rfl

/-- The alert stream after a crash-free run: the alert site comes before the
persist, so it is unaffected by the `tsAdd` outcome. -/
lemma alerts_processEntry (s : ProcState) (e : Entry) (tms : ℤ) (temp : ℚ)
    (hd : decodeEntry e = some (tms, temp)) :
    (processEntry s e).alerts =
      if (check_for_anomaly s.store device_id temp 100 2).is_anomaly then
        s.alerts ++
          [mkAlert temp (check_for_anomaly s.store device_id temp 100 2) tms]
      else s.alerts := by
  simp only [processEntry, processEntrySteps, hd]
  split <;> split <;> rfl

/-- The alert stream of the crashed-after-persist state (`k = 2`): same as a
crash-free run, since the alert site precedes the persist. -/
lemma alerts_processEntrySteps_two (s : ProcState) (e : Entry) (tms : ℤ)
    (temp : ℚ) (hd : decodeEntry e = some (tms, temp)) :
    (processEntrySteps s e 2).alerts =
      if (check_for_anomaly s.store device_id temp 100 2).is_anomaly then
        s.alerts ++
          [mkAlert temp (check_for_anomaly s.store device_id temp 100 2) tms]
      else s.alerts := by
  simp only [processEntrySteps, hd]
  split <;> split <;> rfl

/-- The store after a crash-free run: unchanged when `TS.ADD` rejected the
duplicate timestamp, the insertion otherwise. -/
lemma store_processEntry (s : ProcState) (e : Entry) (tms : ℤ) (temp : ℚ)
    (hd : decodeEntry e = some (tms, temp)) :
    (processEntry s e).store =
      if (s.store (tsKey device_id)).any (fun p => decide (p.1 = tms)) then
        s.store
      else storeUpdate s.store (tsKey device_id) (tsInsert tms temp) := by
  simp only [processEntry, processEntrySteps, hd]
  have hs1 : (if (check_for_anomaly s.store device_id temp 100 2).is_anomaly
      then { s with alerts := s.alerts ++
        [mkAlert temp (check_for_anomaly s.store device_id temp 100 2) tms] }
      else s).store = s.store := by
    split <;> rfl
  rw [hs1]
  simp only [tsAdd]
  by_cases hdup :
      (s.store (tsKey device_id)).any (fun p => decide (p.1 = tms)) = true
  · simp only [if_pos hdup]
    exact hs1
  · simp only [if_neg hdup]

/-- The store of the crashed-after-persist state (`k = 2`): same as a
crash-free run, since the store is untouched after the persist. -/
lemma store_processEntrySteps_two (s : ProcState) (e : Entry) (tms : ℤ)
    (temp : ℚ) (hd : decodeEntry e = some (tms, temp)) :
    (processEntrySteps s e 2).store =
      if (s.store (tsKey device_id)).any (fun p => decide (p.1 = tms)) then
        s.store
      else storeUpdate s.store (tsKey device_id) (tsInsert tms temp) := by
  simp only [processEntrySteps, hd]
  have hs1 : (if (check_for_anomaly s.store device_id temp 100 2).is_anomaly
      then { s with alerts := s.alerts ++
        [mkAlert temp (check_for_anomaly s.store device_id temp 100 2) tms] }
      else s).store = s.store := by
    split <;> rfl
  rw [hs1]
  simp only [tsAdd]
  by_cases hdup :
      (s.store (tsKey device_id)).any (fun p => decide (p.1 = tms)) = true
  · simp only [if_pos hdup]
    exact hs1
  · simp only [if_neg hdup]

/-- The acknowledgment list after a crash-free run: the entry is acked
exactly when `TS.ADD` did not raise. -/
lemma acked_processEntry (s : ProcState) (e : Entry) (tms : ℤ) (temp : ℚ)
    (hd : decodeEntry e = some (tms, temp)) :
    (processEntry s e).acked =
      if (s.store (tsKey device_id)).any (fun p => decide (p.1 = tms)) then
        s.acked
      else s.acked ++ [e.id] := by
  simp only [processEntry, processEntrySteps, hd]
  have hs1 : (if (check_for_anomaly s.store device_id temp 100 2).is_anomaly
      then { s with alerts := s.alerts ++
        [mkAlert temp (check_for_anomaly s.store device_id temp 100 2) tms] }
      else s).store = s.store := by
    split <;> rfl
  have ha1 : (if (check_for_anomaly s.store device_id temp 100 2).is_anomaly
      then { s with alerts := s.alerts ++
        [mkAlert temp (check_for_anomaly s.store device_id temp 100 2) tms] }
      else s).acked = s.acked := by
    split <;> rfl
  rw [hs1]
  simp only [tsAdd]
  by_cases hdup :
      (s.store (tsKey device_id)).any (fun p => decide (p.1 = tms)) = true
  · simp only [if_pos hdup]
    exact ha1
  · simp only [if_neg hdup]
    exact congrArg (fun l => l ++ [e.id]) ha1

/-- The crashed-after-persist state (`k = 2`) acknowledges nothing new. -/
lemma acked_processEntrySteps_two (s : ProcState) (e : Entry) (tms : ℤ)
    (temp : ℚ) (hd : decodeEntry e = some (tms, temp)) :
    (processEntrySteps s e 2).acked = s.acked := by
  simp only [processEntrySteps, hd]
  have ha1 : (if (check_for_anomaly s.store device_id temp 100 2).is_anomaly
      then { s with alerts := s.alerts ++
        [mkAlert temp (check_for_anomaly s.store device_id temp 100 2) tms] }
      else s).acked = s.acked := by
    split <;> rfl
  split
  · exact ha1
  · exact ha1

lemma acked_processEntry_mono (s : ProcState) (e : Entry) (a : ℕ)
    (h : a ∈ s.acked) : a ∈ (processEntry s e).acked := by
  cases hd : decodeEntry e with
  | none =>
    rw [show processEntry s e = processEntrySteps s e 3 from rfl,
      processEntrySteps_decode_none s e 3 hd]
    exact h
  | some p =>
    obtain ⟨tms, temp⟩ := p
    rw [acked_processEntry s e tms temp hd]
    split
    · exact h
    · exact List.mem_append_left _ h

/-- Whether the per-entry block reaches the `r.xack` call on this entry:
the decode did not raise and the reading's timestamp is not already stored
(so `TS.ADD` does not raise under `DUPLICATE_POLICY BLOCK`). -/
def processSucceeds (p : ProcState) (e : Entry) : Bool :=
  match decodeEntry e with
  | none => false
  | some (tms, _) => !((p.store (tsKey device_id)).any (fun q => decide (q.1 = tms)))

lemma acked_of_processSucceeds (p : ProcState) (e : Entry)
    (h : processSucceeds p e = true) : e.id ∈ (processEntry p e).acked := by
  unfold processSucceeds at h
  cases hd : decodeEntry e with
  | none =>
    rw [hd] at h
    exact absurd h (by simp)
  | some pr =>
    obtain ⟨tms, temp⟩ := pr
    rw [hd] at h
    have hfresh : (p.store (tsKey device_id)).any (fun q => decide (q.1 = tms))
        = false := by
      simpa using h
    rw [acked_processEntry p e tms temp hd, if_neg (by simp [hfresh])]
    exact List.mem_append_right _ (List.mem_singleton.mpr rfl)

/-- The alert stream after the spec's parameter-reading block: as for the
source block, the alert site precedes the persist. -/
lemma alerts_processEntryParamsSpec (p : Params) (s : ProcState) (e : Entry)
    (tms : ℤ) (temp : ℚ) (hd : decodeEntry e = some (tms, temp)) :
    (processEntryParamsSpec p s e).alerts =
      if (check_for_anomaly s.store device_id temp p.window_size
          p.std_dev_multiplier).is_anomaly then
        s.alerts ++ [mkAlert temp (check_for_anomaly s.store device_id temp
          p.window_size p.std_dev_multiplier) tms]
      else s.alerts := by
  simp only [processEntryParamsSpec, hd]
  split <;> split <;> rfl

/-! ### Claims about the per-entry block -/

/-- C4: in both phases (which share this block verbatim), an entry is only
ever acknowledged by the final of the three operations, after the persist:
any crash point `k` whose state acknowledges `e` has the decoded reading
present in the device's time series. -/
theorem c4_persist_before_ack (s : ProcState) (e : Entry) (k : ℕ)
    (hnew : e.id ∉ s.acked) (hack : e.id ∈ (processEntrySteps s e k).acked) :
    ∃ tms temp, decodeEntry e = some (tms, temp) ∧
      (tms, temp) ∈ (processEntrySteps s e k).store (tsKey device_id) := by
  cases hd : decodeEntry e with
  | none =>
    rw [processEntrySteps_decode_none s e k hd] at hack
    exact absurd hack hnew
  | some p =>
    obtain ⟨tms, temp⟩ := p
    refine ⟨tms, temp, rfl, ?_⟩
    rcases k with _ | _ | _ | n
    · rw [processEntrySteps_zero] at hack
      exact absurd hack hnew
    · exfalso
      apply hnew
      have hone : (processEntrySteps s e 1).acked = s.acked := by
        simp only [processEntrySteps, hd]
        split <;> rfl
      rwa [hone] at hack
    · exfalso
      apply hnew
      rwa [acked_processEntrySteps_two s e tms temp hd] at hack
    · have hfull : processEntrySteps s e (n + 3) = processEntry s e := by
        simp only [processEntry, processEntrySteps, hd]
      rw [hfull] at hack ⊢
      by_cases hdup :
          (s.store (tsKey device_id)).any (fun p => decide (p.1 = tms)) = true
      · exfalso
        apply hnew
        rw [acked_processEntry s e tms temp hd, if_pos hdup] at hack
        exact hack
      · rw [store_processEntry s e tms temp hd, if_neg hdup, storeUpdate_same]
        exact self_mem_tsInsert tms temp _

/-- The empty processing state: no stored samples, no alerts, nothing
acknowledged. -/
def sEmpty : ProcState := ⟨fun _ => [], [], []⟩

/-- A well-formed entry: id 1, timestamp 1 s, temperature 20. -/
def eC4 : Entry := ⟨1, some 1, some 20⟩

/-- Witness for C4: a complete run (`k = 3`) on the empty state acknowledges
entry 1 and indeed persisted its reading. -/
theorem c4_persist_before_ack_witness :
    ∃ tms temp, decodeEntry eC4 = some (tms, temp) ∧
      (tms, temp) ∈ (processEntrySteps sEmpty eC4 3).store (tsKey device_id) :=
  c4_persist_before_ack sEmpty eC4 3 (by decide) (by decide)

/-- 100 samples of value 20 at timestamps 1..100: a full default window. -/
def samples100 : List Sample := (List.range 100).map (fun i => ((i : ℤ) + 1, 20))

def storeC6 : TSStore := fun k => if k = tsKey "01" then samples100 else []

def sC6 : ProcState := ⟨storeC6, [], []⟩

/-- An anomalous reading (1000 against a flat window of 20s) at 200 s. -/
def eC6 : Entry := ⟨7, some 200, some 1000⟩

lemma decode_eC6 : decodeEntry eC6 = some (200000, 1000) := by
  have h1 : (200 : ℚ) * 1000 = ((200000 : ℤ) : ℚ) := by norm_num
  have h0 : (0 : ℚ) ≤ 200 * 1000 := by norm_num
  simp [decodeEntry, eC6, pyInt, h0, h1, Int.floor_intCast]

/-- C6 counterexample: entry `eC6` is anomalous against `sC6`'s flat full
window.  If its first processing dies after the persist but before the ack
(`k = 2`), re-running the block on the redelivered entry appends a second
alert for the same reading: the alert topic holds 2 alerts where a single
processing leaves 1. -/
theorem c6_duplicate_alert_on_redelivery :
    (processEntry (processEntrySteps sC6 eC6 2) eC6).alerts.length = 2 ∧
    (processEntry sC6 eC6).alerts.length = 1 := by
  have hd := decode_eC6
  have halerts : sC6.alerts = [] := rfl
  have hanom1 : (check_for_anomaly sC6.store device_id 1000 100 2).is_anomaly
      = true :=
    (check_flat_window sC6.store device_id 20 1000 100 2 (by decide)
      (by decide) (by decide)).mpr (by norm_num)
  constructor
  · have hst2 : (processEntrySteps sC6 eC6 2).store =
        storeUpdate sC6.store (tsKey device_id) (tsInsert 200000 1000) := by
      rw [store_processEntrySteps_two sC6 eC6 200000 1000 hd,
        if_neg (by decide)]
    have hal2 : (processEntrySteps sC6 eC6 2).alerts =
        sC6.alerts ++
          [mkAlert 1000 (check_for_anomaly sC6.store device_id 1000 100 2)
            200000] := by
      rw [alerts_processEntrySteps_two sC6 eC6 200000 1000 hd, if_pos hanom1]
    have hanom2 : (check_for_anomaly
        (storeUpdate sC6.store (tsKey device_id) (tsInsert 200000 1000))
        device_id 1000 100 2).is_anomaly = true :=
      (check_flat_window _ device_id 20 1000 100 2 (by decide) (by decide)
        (by decide)).mpr (by norm_num)
    rw [alerts_processEntry (processEntrySteps sC6 eC6 2) eC6 200000 1000 hd,
      hst2, if_pos hanom2, hal2, halerts]
    rfl
  · rw [alerts_processEntry sC6 eC6 200000 1000 hd, if_pos hanom1, halerts]
    rfl

/-- C6 amended: re-running the block on a redelivered persist-but-not-acked
entry leaves the device's time series exactly as a single processing would:
the redelivered `TS.ADD` hits the already-stored timestamp and raises under
the store's default `DUPLICATE_POLICY BLOCK`, changing nothing.  The alert
topic is not as-if-once — the alert site precedes the persist and runs
again (see the counterexample). -/
theorem c6_store_as_if_once (s : ProcState) (e : Entry) :
    (processEntry (processEntrySteps s e 2) e).store (tsKey device_id) =
      (processEntry s e).store (tsKey device_id) := by
  cases hd : decodeEntry e with
  | none =>
    rw [processEntrySteps_decode_none s e 2 hd]
  | some p =>
    obtain ⟨tms, temp⟩ := p
    rw [store_processEntry (processEntrySteps s e 2) e tms temp hd,
      store_processEntry s e tms temp hd,
      store_processEntrySteps_two s e tms temp hd]
    by_cases hdup :
        (s.store (tsKey device_id)).any (fun p => decide (p.1 = tms)) = true
    · simp only [if_pos hdup]
    · simp only [if_neg hdup]
      have hins : ((storeUpdate s.store (tsKey device_id) (tsInsert tms temp))
          (tsKey device_id)).any (fun p => decide (p.1 = tms)) = true := by
        rw [storeUpdate_same]
        exact any_tsInsert_self tms temp _
      rw [if_pos hins]

/-- C3 amended: the per-entry block is extensionally the spec's
parameter-reading block with the Parameter Store pinned to the defaults
`(100, 2.0)` — the source passes no parameters, so `check_for_anomaly`'s
Python defaults are used for every entry. -/
theorem c3_defaults_always_used (s : ProcState) (e : Entry) :
    processEntry s e = processEntryParamsSpec ⟨100, 2⟩ s e := by
  cases hd : decodeEntry e with
  | none => simp only [processEntry, processEntrySteps, processEntryParamsSpec, hd]
  | some p =>
    obtain ⟨tms, temp⟩ := p
    simp only [processEntry, processEntrySteps, processEntryParamsSpec, hd]

/-- A store holding a single reading of 20 for device `01`. -/
def storeC3 : TSStore := fun k => if k = tsKey "01" then [(1, 20)] else []

def sC3 : ProcState := ⟨storeC3, [], []⟩

/-- An extreme reading (1000) at 3 s, entry id 11. -/
def eC3 : Entry := ⟨11, some 3, some 1000⟩

lemma decode_eC3 : decodeEntry eC3 = some (3000, 1000) := by
  have h1 : (3 : ℚ) * 1000 = ((3000 : ℤ) : ℚ) := by norm_num
  have h0 : (0 : ℚ) ≤ 3 * 1000 := by norm_num
  simp [decodeEntry, eC3, pyInt, h0, h1, Int.floor_intCast]

/-- C3 counterexample: with the Parameter Store set by an operator to
`window_size = 1`, the spec's behaviour flags reading 1000 against the
single stored reading 20 and emits an alert; the code ignores the store,
uses its default window 100, finds insufficient history, and emits
nothing. -/
theorem c3_operator_write_ignored :
    (processEntryParamsSpec ⟨1, 2⟩ sC3 eC3).alerts.length = 1 ∧
    (processEntry sC3 eC3).alerts.length = 0 := by
  have hd := decode_eC3
  have halerts : sC3.alerts = [] := rfl
  constructor
  · have hanom : (check_for_anomaly sC3.store device_id 1000 1 2).is_anomaly
        = true :=
      (check_flat_window sC3.store device_id 20 1000 1 2 (by decide)
        (by decide) (by decide)).mpr (by norm_num)
    rw [alerts_processEntryParamsSpec ⟨1, 2⟩ sC3 eC3 3000 1000 hd]
    dsimp only
    rw [if_pos hanom, halerts]
    rfl
  · have hno : (check_for_anomaly sC3.store device_id 1000 100 2).is_anomaly
        = false := by
      rw [check_short_history sC3.store device_id 1000 100 2 (by decide)]
    rw [alerts_processEntry sC3 eC3 3000 1000 hd, if_neg (by simp [hno]),
      halerts]
    rfl

/-! ### The processing loop (`process_messages`, lines 82-201) -/

inductive Phase
  | recovery
  | live
  deriving DecidableEq

/-- The observable state of `process_messages` together with the Stream Log's
consumption cursor for this consumer: `pel` is the Pending Entry Set
(entries delivered but not yet acknowledged, in id order), `newq` the
never-delivered entries in arrival order, and `livePulled` the entries
delivered by live-phase (`'>'`) reads, in delivery order. -/
structure LoopState where
  phase : Phase
  pel : List Entry
  newq : List Entry
  livePulled : List Entry
  proc : ProcState

/-- One iteration of the recovery loop (lines 90-142): `xreadgroup` with id
`'0'` and `count=1` redelivers the first still-pending entry; an empty reply
breaks into the live phase (lines 100-102).  Successful processing
acknowledges the entry, removing it from the Pending Entry Set; an entry
whose processing raised stays pending and is re-read on the next
iteration. -/
def recoveryStep (s : LoopState) : LoopState :=
  match s.pel with
  | [] => { s with phase := .live }
  | e :: rest =>
    if processSucceeds s.proc e then
      { s with pel := rest, proc := processEntry s.proc e }
    else { s with proc := processEntry s.proc e }

/-- One iteration of the live loop (lines 145-201): `xreadgroup` with id `'>'`
and `count=1` delivers the next new entry, which thereby enters the Pending
Entry Set; successful processing acknowledges it (it leaves the set again),
a failure leaves it pending for a later recovery pass, and the loop proceeds
to the next new entry either way (lines 190-191).  With no new entries the
loop idles (lines 155-157). -/
def liveStep (s : LoopState) : LoopState :=
  match s.newq with
  | [] => s
  | e :: rest =>
    if processSucceeds s.proc e then
      { s with
        newq := rest
        livePulled := s.livePulled ++ [e]
        proc := processEntry s.proc e }
    else
      { s with
        newq := rest
        livePulled := s.livePulled ++ [e]
        pel := s.pel ++ [e]
        proc := processEntry s.proc e }

def loopStep (s : LoopState) : LoopState :=
  match s.phase with
  | .recovery => recoveryStep s
  | .live => liveStep s

/-- `n` iterations of the processing loop. -/
def loopRun (s : LoopState) : ℕ → LoopState
  | 0 => s
  | n + 1 => loopRun (loopStep s) n

/-- The loop as `process_messages` starts it: recovery phase, pending
entries `P`, new entries `Q`, nothing yet pulled live. -/
def loopStart (P Q : List Entry) (proc : ProcState) : LoopState :=
  ⟨.recovery, P, Q, [], proc⟩

/-! ### Supporting lemmas about the loop -/

lemma recoveryStep_nil (s : LoopState) (h : s.pel = []) :
    recoveryStep s = { s with phase := .live } := by
  unfold recoveryStep
  rw [h]

lemma recoveryStep_cons_ok (s : LoopState) (e : Entry) (rest : List Entry)
    (h : s.pel = e :: rest) (hs : processSucceeds s.proc e = true) :
    recoveryStep s = { s with pel := rest, proc := processEntry s.proc e } := by
  unfold recoveryStep
  rw [h]
  simp [hs]

lemma recoveryStep_cons_bad (s : LoopState) (e : Entry) (rest : List Entry)
    (h : s.pel = e :: rest) (hs : ¬ processSucceeds s.proc e = true) :
    recoveryStep s = { s with proc := processEntry s.proc e } := by
  unfold recoveryStep
  rw [h]
  simp [hs]

lemma liveStep_nil (s : LoopState) (h : s.newq = []) : liveStep s = s := by
  unfold liveStep
  rw [h]

lemma liveStep_cons_ok (s : LoopState) (e : Entry) (rest : List Entry)
    (h : s.newq = e :: rest) (hs : processSucceeds s.proc e = true) :
    liveStep s = { s with
      newq := rest
      livePulled := s.livePulled ++ [e]
      proc := processEntry s.proc e } := by
  unfold liveStep
  rw [h]
  simp [hs]

lemma liveStep_cons_bad (s : LoopState) (e : Entry) (rest : List Entry)
    (h : s.newq = e :: rest) (hs : ¬ processSucceeds s.proc e = true) :
    liveStep s = { s with
      newq := rest
      livePulled := s.livePulled ++ [e]
      pel := s.pel ++ [e]
      proc := processEntry s.proc e } := by
  unfold liveStep
  rw [h]
  simp [hs]

lemma loopStep_recovery (s : LoopState) (h : s.phase = .recovery) :
    loopStep s = recoveryStep s := by
  unfold loopStep
  rw [h]

lemma loopStep_live (s : LoopState) (h : s.phase = .live) :
    loopStep s = liveStep s := by
  unfold loopStep
  rw [h]

/-- Invariant behind recovery-before-live: while in the recovery phase
nothing has been pulled live and every initially-pending entry is either
acknowledged or still pending; once in the live phase every
initially-pending entry is acknowledged. -/
def RecInv (P : List Entry) (s : LoopState) : Prop :=
  (s.phase = .recovery → s.livePulled = [] ∧
    ∀ e ∈ P, e.id ∈ s.proc.acked ∨ e ∈ s.pel) ∧
  (s.phase = .live → ∀ e ∈ P, e.id ∈ s.proc.acked)

lemma recInv_step (P : List Entry) (s : LoopState) (h : RecInv P s) :
    RecInv P (loopStep s) := by
  by_cases hp : s.phase = .recovery
  · rw [loopStep_recovery s hp]
    obtain ⟨hlp, hmem⟩ := h.1 hp
    cases hpel : s.pel with
    | nil =>
      rw [recoveryStep_nil s hpel]
      constructor
      · exact fun hph => Phase.noConfusion hph
      · intro _ e he
        rcases hmem e he with hack | hin
        · exact hack
        · rw [hpel] at hin
          exact absurd hin (List.not_mem_nil e)
    | cons e0 rest =>
      by_cases hdec : processSucceeds s.proc e0 = true
      · rw [recoveryStep_cons_ok s e0 rest hpel hdec]
        refine ⟨fun _ => ⟨hlp, fun e he => ?_⟩,
          fun hph => absurd (hp.symm.trans hph) (by decide)⟩
        rcases hmem e he with hack | hin
        · exact Or.inl (acked_processEntry_mono _ _ _ hack)
        · rw [hpel] at hin
          rcases List.mem_cons.mp hin with rfl | htl
          · exact Or.inl (acked_of_processSucceeds _ _ hdec)
          · exact Or.inr htl
      · rw [recoveryStep_cons_bad s e0 rest hpel hdec]
        refine ⟨fun _ => ⟨hlp, fun e he => ?_⟩,
          fun hph => absurd (hp.symm.trans hph) (by decide)⟩
        rcases hmem e he with hack | hin
        · exact Or.inl (acked_processEntry_mono _ _ _ hack)
        · exact Or.inr hin
  · have hp2 : s.phase = .live := by
      cases hq : s.phase with
      | recovery => exact absurd hq hp
      | live => rfl
    rw [loopStep_live s hp2]
    have hl := h.2 hp2
    cases hq : s.newq with
    | nil =>
      rw [liveStep_nil s hq]
      exact h
    | cons e0 rest =>
      by_cases hdec : processSucceeds s.proc e0 = true
      · rw [liveStep_cons_ok s e0 rest hq hdec]
        exact ⟨fun hph => absurd (hp2.symm.trans hph) (by decide),
          fun _ e he => acked_processEntry_mono _ _ _ (hl e he)⟩
      · rw [liveStep_cons_bad s e0 rest hq hdec]
        exact ⟨fun hph => absurd (hp2.symm.trans hph) (by decide),
          fun _ e he => acked_processEntry_mono _ _ _ (hl e he)⟩

lemma phase_eq_live_of_ne (p : Phase) (h : p ≠ .recovery) : p = .live := by
  cases p with
  | recovery => exact absurd rfl h
  | live => rfl

lemma recInv_run (P : List Entry) (s : LoopState) (h : RecInv P s) (n : ℕ) :
    RecInv P (loopRun s n) := by
  induction n generalizing s with
  | zero => exact h
  | succ n ih => exact ih _ (recInv_step P s h)

/-! ### Claims about the loop -/

/-- C5: starting with pending entries `P` and new entries `Q`, if after any
number of iterations something has been pulled by a live-phase read, then
every entry of `P` has been processed and acknowledged: recovery runs to
exhaustion before any new entry is accepted. -/
theorem c5_recovery_before_live (P Q : List Entry) (proc : ProcState) (n : ℕ)
    (hpull : (loopRun (loopStart P Q proc) n).livePulled ≠ []) :
    ∀ e ∈ P, e.id ∈ (loopRun (loopStart P Q proc) n).proc.acked := by
  have hinv : RecInv P (loopRun (loopStart P Q proc) n) :=
    recInv_run P _ ⟨fun _ => ⟨rfl, fun e he => Or.inr he⟩,
      fun hph => Phase.noConfusion hph⟩ n
  by_cases hph : (loopRun (loopStart P Q proc) n).phase = .recovery
  · exact absurd (hinv.1 hph).1 hpull
  · exact hinv.2 (phase_eq_live_of_ne _ hph)

/-- A pending entry (id 21) and a new entry (id 22), both well-formed. -/
def eW1 : Entry := ⟨21, some 1, some 20⟩

def eW2 : Entry := ⟨22, some 2, some 21⟩

lemma decode_eW1 : decodeEntry eW1 = some (1000, 20) := by
  have h1 : (1 : ℚ) * 1000 = ((1000 : ℤ) : ℚ) := by norm_num
  have h0 : (0 : ℚ) ≤ 1 * 1000 := by norm_num
  simp [decodeEntry, eW1, pyInt, h0, h1, Int.floor_intCast]

lemma decode_eW2 : decodeEntry eW2 = some (2000, 21) := by
  have h1 : (2 : ℚ) * 1000 = ((2000 : ℤ) : ℚ) := by norm_num
  have h0 : (0 : ℚ) ≤ 2 * 1000 := by norm_num
  simp [decodeEntry, eW2, pyInt, h0, h1, Int.floor_intCast]

/-- The concrete three-iteration run behind the C5 witness: process the
pending entry, switch phases, pull the new entry. -/
lemma c5_witness_run :
    loopRun (loopStart [eW1] [eW2] sEmpty) 3 =
      ⟨.live, [], [], [eW2], processEntry (processEntry sEmpty eW1) eW2⟩ := by
  have hs1 : processSucceeds sEmpty eW1 = true := by
    unfold processSucceeds
    rw [decode_eW1]
    decide
  have hs2 : processSucceeds (processEntry sEmpty eW1) eW2 = true := by
    unfold processSucceeds
    rw [decode_eW2, store_processEntry sEmpty eW1 1000 20 decode_eW1,
      if_neg (by decide), storeUpdate_same]
    decide
  have e1 : loopStep (loopStart [eW1] [eW2] sEmpty) =
      ⟨.recovery, [], [eW2], [], processEntry sEmpty eW1⟩ := by
    rw [loopStep_recovery _ rfl, recoveryStep_cons_ok _ eW1 [] rfl hs1]
    rfl
  have e2 : loopStep (⟨.recovery, [], [eW2], [],
      processEntry sEmpty eW1⟩ : LoopState) =
      ⟨.live, [], [eW2], [], processEntry sEmpty eW1⟩ := by
    rw [loopStep_recovery _ rfl, recoveryStep_nil _ rfl]
  have e3 : loopStep (⟨.live, [], [eW2], [],
      processEntry sEmpty eW1⟩ : LoopState) =
      ⟨.live, [], [], [eW2], processEntry (processEntry sEmpty eW1) eW2⟩ := by
    rw [loopStep_live _ rfl, liveStep_cons_ok _ eW2 [] rfl hs2]
    rfl
  show loopStep (loopStep (loopStep (loopStart [eW1] [eW2] sEmpty))) = _
  rw [e1, e2, e3]

/-- Witness for C5: after three iterations (process the pending entry, switch
phases, pull the new entry) entry 21 is acknowledged. -/
theorem c5_recovery_before_live_witness :
    eW1.id ∈ (loopRun (loopStart [eW1] [eW2] sEmpty) 3).proc.acked :=
  c5_recovery_before_live [eW1] [eW2] sEmpty 3
    (by rw [c5_witness_run]; simp) eW1 (by decide)

/-- C10: a live-loop iteration on an entry whose decode raises leaves the
processing state untouched (nothing persisted, alerted or acknowledged),
keeps the entry in the Pending Entry Set — redeliverable by a recovery
pass — and moves on to the next new entry with the loop still running. -/
theorem c10_malformed_entry_skipped_unacked (s : LoopState) (e : Entry)
    (rest : List Entry) (hph : s.phase = .live) (hq : s.newq = e :: rest)
    (hbad : decodeEntry e = none) (hnot : e.id ∉ s.proc.acked) :
    (loopStep s).proc = s.proc ∧
    (loopStep s).phase = .live ∧
    (loopStep s).newq = rest ∧
    e ∈ (loopStep s).pel ∧
    e.id ∉ (loopStep s).proc.acked := by
  have hs : ¬ processSucceeds s.proc e = true := by
    unfold processSucceeds
    rw [hbad]
    simp
  have hpe : processEntry s.proc e = s.proc :=
    processEntrySteps_decode_none s.proc e 3 hbad
  rw [loopStep_live s hph, liveStep_cons_bad s e rest hq hs]
  refine ⟨hpe, hph, rfl,
    List.mem_append_right _ (List.mem_singleton.mpr rfl), ?_⟩
  show e.id ∉ (processEntry s.proc e).acked
  rw [hpe]
  exact hnot

/-- A malformed entry: its `timestamp` field is missing. -/
def eBad : Entry := ⟨5, none, some 20⟩

/-- A live-phase state about to read the malformed entry. -/
def sLive : LoopState := ⟨.live, [], [eBad], [], sEmpty⟩

/-- Witness for C10 at the concrete malformed entry. -/
theorem c10_malformed_entry_witness :
    (loopStep sLive).proc = sLive.proc ∧
    (loopStep sLive).phase = .live ∧
    (loopStep sLive).newq = [] ∧
    eBad ∈ (loopStep sLive).pel ∧
    eBad.id ∉ (loopStep sLive).proc.acked :=
  c10_malformed_entry_skipped_unacked sLive eBad [] (by decide) (by decide)
    (by decide) (by decide)

end StreamProcessor
